import Mathlib

set_option maxHeartbeats 1000000

/-!
Verification development for the notifications core of the insights API
server (`routes_notifications.py`): webhook ingestion, the vessel-screening
workflow, and the SSE broadcast hub, embedded shallowly and checked against
the natural-language specification.
-/

namespace InsightsApi

/-- Dynamic JSON-like values, mirroring the loosely typed Python dicts the
source passes around.  `oid` stands for a store-assigned `ObjectId`
(modelled as a natural number). -/
inductive Value where
  | str  : String → Value
  | num  : Int → Value
  | bool : Bool → Value
  | null : Value
  | oid  : Nat → Value
  | arr  : List Value → Value
  | obj  : List (String × Value) → Value

/-- A Python dict with string keys (association list, unique keys,
insertion order). -/
abbrev Doc := List (String × Value)

/-- `d.get(k)` on a Python dict: the value at the first matching key. -/
def getKey : Doc → String → Option Value
  | [], _ => none
  | (k, v) :: rest, key => if k == key then some v else getKey rest key

/-- `d[k] = v` on a Python dict: replace in place if the key is present
(keeping its position), otherwise append. -/
def setKey : Doc → String → Value → Doc
  | [], key, v => [(key, v)]
  | (k, w) :: rest, key, v =>
      if k == key then (k, v) :: rest else (k, w) :: setKey rest key v

/-- Python truthiness of a value (`if x:`). -/
def truthy : Value → Bool
  | .str s => s ≠ ""
  | .num n => n ≠ 0
  | .bool b => b
  | .null => false
  | .oid _ => true
  | .arr l => !l.isEmpty
  | .obj l => !l.isEmpty

/-- Python equality of a value against a string literal (`x == "s"`). -/
def Value.isStr : Value → String → Bool
  | .str t, s => t == s
  | _, _ => false

/-- `v.get(k, default)` in Python: succeeds only on dicts, raising
`AttributeError` (modelled as `.error ()`) on any other value. -/
def pyGet (v : Value) (key : String) (default : Value) : Except Unit Value :=
  match v with
  | .obj d => .ok ((getKey d key).getD default)
  | _ => .error ()

/-- `str(x)` in Python.  Container `repr` quoting is simplified (string
items are shown in bare single-quote style without escape processing);
no claim evaluates `str` on a container. -/
def pyStr : Value → String
  | .str s => s
  | .num n => toString n
  | .bool true => "True"
  | .bool false => "False"
  | .null => "None"
  | .oid n => toString n
  | .arr _ => "[...]"
  | .obj _ => "\x7b...\x7d"

-- ---------------------------------------------------------------------------
-- SSE message sanitization and serialization
-- ---------------------------------------------------------------------------

/-- `html.escape` acting on one character: `&`, `<`, `>`, `"` and the
apostrophe (code point 39) are replaced by their HTML entities.  The Python
implementation performs sequential `str.replace` passes in this order;
since no replacement string contains a character that a later pass
rewrites, the per-character map below computes the same result. -/
def escapeChar (c : Char) : List Char :=
  if c = '&' then "&amp;".toList
  else if c = '<' then "&lt;".toList
  else if c = '>' then "&gt;".toList
  else if c = '"' then "&quot;".toList
  else if c.toNat = 39 then "&#x27;".toList
  else [c]

/-- `html.escape(s)` with the default `quote=True`. -/
def htmlEscape (s : String) : String :=
  String.mk (s.toList.flatMap escapeChar)

mutual
/-- Inner `sanitize_value` of `SSEConnectionManager._sanitize_notification`:
HTML-escape every string value, recursing through dicts and lists; dict
keys and non-string leaves are left as they are. -/
def sanitize_value : Value → Value
  | .str s => .str (htmlEscape s)
  | .num n => .num n
  | .bool b => .bool b
  | .null => .null
  | .oid n => .oid n
  | .arr l => .arr (sanitizeItems l)
  | .obj l => .obj (sanitizeFields l)

def sanitizeItems : List Value → List Value
  | [] => []
  | v :: rest => sanitize_value v :: sanitizeItems rest

def sanitizeFields : List (String × Value) → List (String × Value)
  | [] => []
  | (k, v) :: rest => (k, sanitize_value v) :: sanitizeFields rest
end

/-- Four lowercase hexadecimal digits, as Python's `\uXXXX` escapes. -/
def hex4 (n : Nat) : String :=
  let digit := fun (m : Nat) => String.singleton (Nat.digitChar (m % 16))
  digit (n / 4096) ++ digit (n / 256) ++ digit (n / 16) ++ digit n

/-- `json.dumps` escaping of one character inside a string literal
(`ensure_ascii=True`: non-ASCII code points become `\uXXXX`, with
surrogate pairs above `0xFFFF`). -/
def jsonEscapeChar (c : Char) : String :=
  if c = '"' then "\\\""
  else if c = '\\' then "\\\\"
  else if c.toNat = 8 then "\\b"
  else if c.toNat = 9 then "\\t"
  else if c.toNat = 10 then "\\n"
  else if c.toNat = 12 then "\\f"
  else if c.toNat = 13 then "\\r"
  else if c.toNat < 32 then "\\u" ++ hex4 c.toNat
  else if c.toNat < 127 then String.singleton c
  else if c.toNat ≤ 65535 then "\\u" ++ hex4 c.toNat
  else
    let v := c.toNat - 65536
    "\\u" ++ hex4 (55296 + v / 1024) ++ "\\u" ++ hex4 (56320 + v % 1024)

def jsonEscapeString (s : String) : String :=
  String.join (s.toList.map jsonEscapeChar)

mutual
/-- `json.dumps(data, default=str)` with the default separators; the
`default=str` hook renders a store identifier as its string form. -/
def jsonDumps : Value → String
  | .str s => "\"" ++ jsonEscapeString s ++ "\""
  | .num n => toString n
  | .bool true => "true"
  | .bool false => "false"
  | .null => "null"
  | .oid n => "\"" ++ jsonEscapeString (toString n) ++ "\""
  | .arr l => "[" ++ jsonItems l ++ "]"
  | .obj l => "\x7b" ++ jsonFields l ++ "\x7d"

def jsonItems : List Value → String
  | [] => ""
  | [v] => jsonDumps v
  | v :: rest => jsonDumps v ++ ", " ++ jsonItems rest

def jsonFields : List (String × Value) → String
  | [] => ""
  | [(k, v)] => "\"" ++ jsonEscapeString k ++ "\": " ++ jsonDumps v
  | (k, v) :: rest =>
      "\"" ++ jsonEscapeString k ++ "\": " ++ jsonDumps v ++ ", " ++ jsonFields rest
end

/-- `SSEConnectionManager._format_sse_message`: serialize and wrap in the
SSE framing (the serializer is total, so the error branch of the source is
unreachable). -/
def format_sse_message (data : Value) : String :=
  "data: " ++ jsonDumps data ++ "\n\n"

-- ---------------------------------------------------------------------------
-- Broadcast hub (SSEConnectionManager)
-- ---------------------------------------------------------------------------

/-- One live subscriber channel: its `asyncio.Queue` contents and bound.
`id` models object identity of the queue; `faulty` models the environment
raising a non-`QueueFull` exception from `put_nowait` on that channel
(the generic `except Exception` branch of the source). -/
structure Channel where
  id : Nat
  queue : List String
  maxsize : Nat
  faulty : Bool

/-- State of `SSEConnectionManager`: the set of active connections and the
connection cap (`max_connections = 100` in `__init__`). -/
structure HubState where
  active_connections : List Channel
  max_connections : Nat

/-- A fresh `SSEConnectionManager()`. -/
def initHub : HubState := ⟨[], 100⟩

/-- `SSEConnectionManager.connect`: reject when at or above the cap,
otherwise add to the set (adding an already-present member is a no-op). -/
def connect (st : HubState) (c : Channel) : Bool × HubState :=
  if st.active_connections.length ≥ st.max_connections then (false, st)
  else if st.active_connections.any (fun d => d.id = c.id) then (true, st)
  else (true, { st with active_connections := st.active_connections ++ [c] })

/-- `SSEConnectionManager.disconnect`: `set.discard`, idempotent. -/
def disconnect (st : HubState) (cid : Nat) : HubState :=
  { st with active_connections := st.active_connections.filter (fun d => d.id ≠ cid) }

/-- Result of `queue.put_nowait`. -/
inductive EnqueueOutcome where
  | ok : EnqueueOutcome
  | full : EnqueueOutcome
  | exn : EnqueueOutcome

/-- `queue.put_nowait(msg)`: raises `QueueFull` when a positive `maxsize`
is reached; a `faulty` channel raises some other exception. -/
def put_nowait (c : Channel) (msg : String) : EnqueueOutcome × Channel :=
  if c.faulty then (.exn, c)
  else if 0 < c.maxsize ∧ c.maxsize ≤ c.queue.length then (.full, c)
  else (.ok, { c with queue := c.queue ++ [msg] })

/-- The delivery loop shared by `broadcast_notification` and
`send_heartbeat`: iterate over a copy of the connection set, enqueue
without blocking, and disconnect any channel whose enqueue raises
(`QueueFull` or otherwise). -/
def deliverAll (cs : List Channel) (msg : String) : List Channel :=
  cs.filterMap (fun c =>
    match put_nowait c msg with
    | (.ok, c2) => some c2
    | (.full, _) => none
    | (.exn, _) => none)

/-- `SSEConnectionManager.broadcast_notification`: sanitize, serialize and
deliver to every connection with the evict-on-failure policy. -/
def broadcast_notification (st : HubState) (data : Value) : HubState :=
  if st.active_connections.isEmpty then st
  else
    let message := format_sse_message (sanitize_value data)
    { st with active_connections := deliverAll st.active_connections message }

/-- The heartbeat payload built in `send_heartbeat`. -/
def heartbeat_message (ts : String) : String :=
  "data: \x7b\"type\": \"heartbeat\", \"timestamp\": \"" ++ ts ++ "\"\x7d\n\n"

/-- `SSEConnectionManager.send_heartbeat`: enqueue the liveness message to
every connection with the same evict-on-failure policy. -/
def send_heartbeat (st : HubState) (ts : String) : HubState :=
  if st.active_connections.isEmpty then st
  else { st with active_connections := deliverAll st.active_connections (heartbeat_message ts) }

/-- `zone_port_events_stream`: create a queue with `maxsize=50`, try to
register it, and answer 503 when the hub is at capacity. -/
def zone_port_events_stream_register (st : HubState) (cid : Nat) :
    Except Nat HubState :=
  let c : Channel := ⟨cid, [], 50, false⟩
  match connect st c with
  | (false, _) => .error 503
  | (true, st2) => .ok st2

-- ---------------------------------------------------------------------------
-- Event store gateway (MongoDB collection)
-- ---------------------------------------------------------------------------

/-- The zone-port notifications collection: documents keyed by their
store-assigned identifier, plus the next fresh identifier. -/
structure Store where
  docs : List (Nat × Doc)
  nextId : Nat

/-- `collection.insert_one(d)`, following pymongo's documented behaviour
for a document without a preexisting `_id`: the store assigns an
`ObjectId` and adds it to the passed document in place; the webhook
payloads of interest never carry their own `_id`. -/
def insert_one (st : Store) (d : Doc) : Store × Nat × Doc :=
  let id := st.nextId
  let d2 := setKey d "_id" (.oid id)
  (⟨st.docs ++ [(id, d2)], id + 1⟩, id, d2)

/-- `collection.find_one(given _id)`. -/
def find_one (st : Store) (id : Nat) : Option Doc :=
  (st.docs.find? (fun p => p.1 = id)).map (fun p => p.2)

/-- `collection.update_one(given _id, set one field)`. -/
def update_one_set (st : Store) (id : Nat) (field : String) (v : Value) : Store :=
  ⟨st.docs.map (fun p => if p.1 = id then (p.1, setKey p.2 field v) else p), st.nextId⟩

-- ---------------------------------------------------------------------------
-- Webhook ingestion (handle_zone_port_webhook)
-- ---------------------------------------------------------------------------

/-- `"|" in v` in Python: character membership for strings, element
membership (against the string `"|"`) for lists, key membership for
dicts, `TypeError` for everything else. -/
def pyInBar (v : Value) : Except Unit Bool :=
  match v with
  | .str s => .ok (s.toList.contains '|')
  | .arr l => .ok (l.any (fun x => x.isStr "|"))
  | .obj l => .ok (l.any (fun p => p.1 == "|"))
  | _ => .error ()

/-- Python `s.strip()` with the default argument: drop leading and
trailing whitespace. -/
def pyStrip (s : String) : String :=
  String.mk (((s.toList.dropWhile Char.isWhitespace).reverse.dropWhile
    Char.isWhitespace).reverse)

/-- Python `s.upper()` (the reference fields of interest are ASCII). -/
def pyUpper (s : String) : String :=
  String.mk (s.toList.map Char.toUpper)

/-- The part of `custom_ref.split("|", 1)` before the first bar. -/
def strBefore (s : String) : String :=
  String.mk (s.toList.takeWhile (fun c => c ≠ '|'))

/-- The part of `custom_ref.split("|", 1)` after the first bar. -/
def strAfter (s : String) : String :=
  String.mk ((s.toList.dropWhile (fun c => c ≠ '|')).drop 1)

/-- Derivation of `(user_id, auto_screen)` from `custom_reference` in
`handle_zone_port_webhook`.  `if custom_ref and "|" in custom_ref:` sits
outside the inner `try`, so a `TypeError` from the membership test
escapes (`.error ()` → the surrounding handler answers 500); splitting a
truthy non-string that supports membership raises inside the inner `try`
and is swallowed to `(None, None)`. -/
def parsedFields (customRef : Value) : Except Unit (Value × Value) :=
  if truthy customRef then
    match pyInBar customRef with
    | .error e => .error e
    | .ok true =>
        match customRef with
        | .str s =>
            .ok (.str (pyStrip (strBefore s)),
                 .bool (pyUpper (pyStrip (strAfter s)) == "TRUE"))
        | _ => .ok (.null, .null)
    | .ok false => .ok (.null, .null)
  else .ok (.null, .null)

/-- The envelope built by `broadcast_notification_to_sse` and handed to
`sse_manager.broadcast_notification`. -/
def broadcast_notification_to_sse (ts : String) (nd : Doc) (insertedId : Nat) : Doc :=
  [("type", .str "zone_port_notification"),
   ("notification_id", .str (toString insertedId)),
   ("timestamp", .str ts),
   ("user_id", (getKey nd "user_id").getD .null),
   ("data", .obj nd)]

/-- The success body returned by `handle_zone_port_webhook`. -/
def webhook_response (insertedId : Nat) : Doc :=
  [("status", .str "success"),
   ("message", .str "Notification stored successfully"),
   ("notification_id", .str (toString insertedId))]

/-- Observable outcome of one successful zone-port webhook ingestion. -/
structure WebhookOk where
  store : Store
  insertedId : Nat
  storedDoc : Doc
  broadcasts : List Doc
  screeningLaunched : Bool
  response : Doc

/-- `handle_zone_port_webhook`: stamp `received_at`, derive
`user_id`/`auto_screen` from `custom_reference`, insert, then either add
the background screening task (auto-screen truthy) or broadcast the
freshly inserted record immediately.  The injected `background_tasks`
handle is modelled as always present, and the store insert as
succeeding; `now` is the `received_at` timestamp and `ts` the broadcast
envelope timestamp. -/
def handle_zone_port_webhook (st : Store) (now : Value) (ts : String) (nd : Doc) :
    Except Unit WebhookOk :=
  let d1 := setKey nd "received_at" now
  match parsedFields ((getKey d1 "custom_reference").getD .null) with
  | .error e => .error e
  | .ok (uid, ascr) =>
    let d2 := setKey (setKey d1 "user_id" uid) "auto_screen" ascr
    match insert_one st d2 with
    | (st2, insertedId, d3) =>
      if truthy ((getKey d3 "auto_screen").getD .null) then
        .ok ⟨st2, insertedId, d3, [], true, webhook_response insertedId⟩
      else
        .ok ⟨st2, insertedId, d3,
             [broadcast_notification_to_sse ts d3 insertedId],
             false, webhook_response insertedId⟩

-- ---------------------------------------------------------------------------
-- Screening workflow engine (screen_vessel_and_update_notification)
-- ---------------------------------------------------------------------------

/-- IMO extraction (`str(nd.get("notification", {}).get("vessel_information",
{}).get("imo") or nd.get("vessel_information", {}).get("imo"))`): chained
`.get` on a non-dict raises `AttributeError` (caught by the caller as a
terminal failure); `or` is lazy, and `str` never raises — in particular a
missing identifier yields the string `"None"`. -/
def extractImo (nd : Doc) : Except Unit String := do
  let a := (getKey nd "notification").getD (.obj [])
  let b ← pyGet a "vessel_information" (.obj [])
  let c ← pyGet b "imo" .null
  if truthy c then
    pure (pyStr c)
  else
    let d := (getKey nd "vessel_information").getD (.obj [])
    let e ← pyGet d "imo" .null
    pure (pyStr e)

/-- Provider answer to the registration call: a transport/HTTP/decoding
failure, or the decoded JSON body. -/
inductive RegResponse where
  | fail : RegResponse
  | ok : Value → RegResponse

/-- Provider answer to one poll of `GET /transaction`. -/
inductive PollResponse where
  | fail : PollResponse
  | ok : Value → PollResponse

/-- The attempt-to-interval map of the poll loop (0-based `poll_count`):
3 seconds below 20, 5 seconds below 32, 10 seconds beyond. -/
def poll_interval (poll_count : Nat) : Nat :=
  if poll_count < 20 then 3 else if poll_count < 32 then 5 else 10

/-- What one poll attempt did: its 0-based index, whether it ended in the
`except` branch, and the interval slept afterwards (`none` exactly when
the attempt broke out of the loop). -/
structure PollEvent where
  idx : Nat
  isError : Bool
  slept : Option Nat

/-- `objects[0]` in Python: head of a list; a truthy string indexes to its
first character; any other value raises. -/
def pyIndexZero : Value → Except Unit Value
  | .arr (x :: _) => .ok x
  | .str s =>
      match s.toList with
      | c :: _ => .ok (.str (String.singleton c))
      | [] => .error ()
  | _ => .error ()

/-- Body processing of one successful poll HTTP exchange: returns the
updated `(poll_resp_obj, screening_status)`, whether the loop broke, and
whether the attempt raised (landing in the `except` branch after any
assignments already made).  Mirrors the statement order of the source:
`poll_resp_obj = objects[0]` executes before the `.get` that may raise. -/
def pollStep (body : Value) (obj : Option Value) (status : Value) :
    Option Value × Value × Bool × Bool :=
  match body with
  | .obj d =>
    let objects := (getKey d "objects").getD (.arr [])
    if truthy objects then
      match pyIndexZero objects with
      | .error _ => (obj, status, false, true)
      | .ok x =>
        match x with
        | .obj xd =>
          let st := (getKey xd "screening_status").getD (.str "PENDING")
          (some x, st, !st.isStr "PENDING", false)
        | _ => (some x, status, false, true)
    else (obj, status, false, false)
  | _ => (obj, status, false, true)

/-- The graduated poll loop (`for poll_count in range(50)`), driven by the
provider's per-attempt responses: transport errors and in-body exceptions
sleep the attempt's interval and continue; a non-`"PENDING"` status breaks.
Returns the final `(poll_resp_obj, screening_status)` and the attempt
trace. -/
def pollLoop (polls : Nat → PollResponse) :
    Nat → Nat → Option Value → Value → Option Value × Value × List PollEvent
  | 0, _, obj, status => (obj, status, [])
  | rem + 1, i, obj, status =>
    let interval := poll_interval i
    match polls i with
    | .fail =>
      let r := pollLoop polls rem (i + 1) obj status
      (r.1, r.2.1, ⟨i, true, some interval⟩ :: r.2.2)
    | .ok body =>
      match pollStep body obj status with
      | (obj2, status2, broke, errored) =>
        if broke then (obj2, status2, [⟨i, false, none⟩])
        else
          let r := pollLoop polls rem (i + 1) obj2 status2
          (r.1, r.2.1, ⟨i, errored, some interval⟩ :: r.2.2)

/-- Python truthiness of the optional `poll_resp_obj` (`None` and the
empty dict are falsy). -/
def truthyOpt : Option Value → Bool
  | none => false
  | some v => truthy v

/-- `for x in v` in Python: list elements, dict keys, string characters;
`TypeError` otherwise. -/
def pyIter : Value → Except Unit (List Value)
  | .arr l => .ok l
  | .obj l => .ok (l.map (fun p => Value.str p.1))
  | .str s => .ok (s.toList.map (fun c => Value.str (String.singleton c)))
  | _ => .error ()

/-- The loop body of the inner `get_status(check)` helper: status of the
first entry whose `check` equals the tag; `None` when the list is
exhausted; an entry without `.get` (a non-dict) raises. -/
def findStatus : List Value → String → Except Unit Value
  | [], _ => .ok .null
  | sr :: rest, check =>
    match sr with
    | .obj d =>
        if ((getKey d "check").getD .null).isStr check then
          .ok ((getKey d "status").getD .null)
        else findStatus rest check
    | _ => .error ()

/-- `get_status(check)` of the source: iterate `screen_results` looking
for the tag. -/
def get_status (screenResults : Value) (check : String) : Except Unit Value := do
  let items ← pyIter screenResults
  findStatus items check

/-- The finalize block (source lines 323–341): read `screen_results` from
the final poll object and build the `screening_results` document; any
exception is swallowed by the caller as a terminal failure. -/
def finalizeScreening (tid : Value) (status : Value) (obj : Value) :
    Except Unit Doc := do
  let sr ← match obj with
    | .obj d => pure ((getKey d "screen_results").getD (.arr []))
    | _ => .error ()
  let cs ← get_status sr "COMPANY_SANCTIONS"
  let ss ← get_status sr "SANCTIONS"
  let sm ← get_status sr "SHIP_MOVE_HIST"
  let psc ← get_status sr "PSC_HISTORY"
  pure [("transaction_id", tid),
        ("overall_severity", status),
        ("company_sanctions", cs),
        ("ship_sanctions", ss),
        ("ship_movement", sm),
        ("psc", psc)]

/-- Terminal state of a screening session (spec's `ScreeningSession.status`
terminal values). -/
inductive SessionStatus where
  | Failed : SessionStatus
  | TimedOut : SessionStatus
  | Resolved : SessionStatus
deriving DecidableEq

/-- Observable outcome of one run of
`screen_vessel_and_update_notification`. -/
structure ScreenRun where
  registrationSent : Option String
  events : List PollEvent
  updatePerformed : Option Doc
  status : SessionStatus
  store : Store

/-- `screen_vessel_and_update_notification`, driven by the provider's
responses (`reg` for the registration call, `polls` for the 50 poll
attempts); `configOk` is whether the three PTE environment variables are
set.  `registrationSent` records the `registered_name` of the
registration request when one was issued. -/
def screen_vessel_and_update_notification (configOk : Bool) (reg : RegResponse)
    (polls : Nat → PollResponse) (nd : Doc) (insertedId : Nat) (st : Store) :
    ScreenRun :=
  if !configOk then ⟨none, [], none, .Failed, st⟩
  else
    match extractImo nd with
    | .error _ => ⟨none, [], none, .Failed, st⟩
    | .ok imo =>
      match reg with
      | .fail => ⟨some imo, [], none, .Failed, st⟩
      | .ok body =>
        match body with
        | .obj rd =>
          let tid := (getKey rd "transaction_id").getD .null
          if !truthy tid then ⟨some imo, [], none, .Failed, st⟩
          else
            match pollLoop polls 50 0 none (.str "PENDING") with
            | (objOpt, status, evs) =>
              if !truthyOpt objOpt || status.isStr "PENDING" then
                ⟨some imo, evs, none, .TimedOut, st⟩
              else
                match finalizeScreening tid status (objOpt.getD .null) with
                | .error _ => ⟨some imo, evs, none, .Failed, st⟩
                | .ok resultsDoc =>
                    ⟨some imo, evs, some resultsDoc, .Resolved,
                     update_one_set st insertedId "screening_results" (.obj resultsDoc)⟩
        | _ => ⟨some imo, [], none, .Failed, st⟩

/-- `screen_vessel_and_update_notification_with_broadcast`: run the
screening function, then fetch whatever the store now holds for the
record and broadcast it — regardless of the session's terminal state. -/
def screen_vessel_and_update_notification_with_broadcast (configOk : Bool)
    (reg : RegResponse) (polls : Nat → PollResponse) (nd : Doc)
    (insertedId : Nat) (st : Store) (ts : String) : ScreenRun × List Doc :=
  let run := screen_vessel_and_update_notification configOk reg polls nd insertedId st
  match find_one run.store insertedId with
  | some doc =>
      let doc2 := setKey doc "_id" (.str (toString insertedId))
      (run, [broadcast_notification_to_sse ts doc2 insertedId])
  | none => (run, [])

-- ---------------------------------------------------------------------------
-- Basic dictionary lemmas
-- ---------------------------------------------------------------------------

theorem getKey_setKey_self (d : Doc) (k : String) (v : Value) :
    getKey (setKey d k v) k = some v := by
  induction d with
  | nil => simp [setKey, getKey]
  | cons p rest ih =>
    obtain ⟨k1, v1⟩ := p
    by_cases h : k1 = k
    · simp [setKey, getKey, h]
    · simp [setKey, getKey, h, ih]

theorem getKey_setKey_ne (d : Doc) (k k2 : String) (v : Value) (h : k ≠ k2) :
    getKey (setKey d k v) k2 = getKey d k2 := by
  induction d with
  | nil => simp [setKey, getKey, h]
  | cons p rest ih =>
    obtain ⟨k1, v1⟩ := p
    by_cases h1 : k1 = k
    · simp [setKey, getKey, h1, h]
    · simp [setKey, getKey, h1, ih]

/-- Characterization of a successful `handle_zone_port_webhook` run, given
the outcome of the `custom_reference` derivation. -/
theorem handle_zone_port_webhook_eq (st : Store) (now : Value) (ts : String)
    (nd : Doc) (uid ascr : Value)
    (hp : parsedFields ((getKey nd "custom_reference").getD .null) = .ok (uid, ascr)) :
    ∃ ok : WebhookOk, handle_zone_port_webhook st now ts nd = .ok ok ∧
      ok.storedDoc = setKey (setKey (setKey (setKey nd "received_at" now)
        "user_id" uid) "auto_screen" ascr) "_id" (.oid st.nextId) ∧
      ok.insertedId = st.nextId ∧
      ok.screeningLaunched = truthy ascr ∧
      ok.broadcasts = (if truthy ascr then []
        else [broadcast_notification_to_sse ts ok.storedDoc ok.insertedId]) ∧
      getKey ok.storedDoc "user_id" = some uid ∧
      getKey ok.storedDoc "auto_screen" = some ascr ∧
      getKey ok.storedDoc "_id" = some (.oid st.nextId) := by
  have hcr : getKey (setKey nd "received_at" now) "custom_reference"
      = getKey nd "custom_reference" :=
    getKey_setKey_ne _ _ _ _ (by decide)
  have hga : getKey (setKey (setKey (setKey (setKey nd "received_at" now)
      "user_id" uid) "auto_screen" ascr) "_id" (.oid st.nextId)) "auto_screen"
      = some ascr := by
    rw [getKey_setKey_ne _ _ _ _ (by decide), getKey_setKey_self]
  have hgu : getKey (setKey (setKey (setKey (setKey nd "received_at" now)
      "user_id" uid) "auto_screen" ascr) "_id" (.oid st.nextId)) "user_id"
      = some uid := by
    rw [getKey_setKey_ne _ _ _ _ (by decide),
        getKey_setKey_ne _ _ _ _ (by decide), getKey_setKey_self]
  have hgi : getKey (setKey (setKey (setKey (setKey nd "received_at" now)
      "user_id" uid) "auto_screen" ascr) "_id" (.oid st.nextId)) "_id"
      = some (.oid st.nextId) := getKey_setKey_self _ _ _
  simp only [handle_zone_port_webhook, hcr, hp, insert_one, hga, Option.getD_some]
  cases h : truthy ascr with
  | true => exact ⟨_, rfl, rfl, rfl, rfl, by simp, hgu, hga, hgi⟩
  | false => exact ⟨_, rfl, rfl, rfl, rfl, by simp, hgu, hga, hgi⟩

/-- C3: for every zone-port webhook ingestion, `userId` and `autoScreen`
are derived from `custom_reference` as specified: with a `|` present, the
field is split on the first `|`, `userId` is the trimmed first part and
`autoScreen` holds exactly when the trimmed second part equals `"TRUE"`
case-insensitively; with the field absent, null or bar-free, both are set
to null and the ingestion still succeeds. -/
theorem c3_custom_reference_derivation (st : Store) (now : Value) (ts : String)
    (nd : Doc) :
    (∀ s : String, getKey nd "custom_reference" = some (.str s) →
      s.toList.contains '|' = true →
      ∃ ok : WebhookOk, handle_zone_port_webhook st now ts nd = .ok ok ∧
        getKey ok.storedDoc "user_id" = some (.str (pyStrip (strBefore s))) ∧
        getKey ok.storedDoc "auto_screen"
          = some (.bool (pyUpper (pyStrip (strAfter s)) == "TRUE"))) ∧
    ((getKey nd "custom_reference" = none ∨
      getKey nd "custom_reference" = some .null ∨
      ∃ s : String, getKey nd "custom_reference" = some (.str s) ∧
        s.toList.contains '|' = false) →
      ∃ ok : WebhookOk, handle_zone_port_webhook st now ts nd = .ok ok ∧
        getKey ok.storedDoc "user_id" = some .null ∧
        getKey ok.storedDoc "auto_screen" = some .null) := by
  constructor
  · intro s hs hbar
    have hsne : s ≠ "" := by
      intro h
      subst h
      simp [List.contains] at hbar
    have hpf : parsedFields ((getKey nd "custom_reference").getD .null)
        = .ok (.str (pyStrip (strBefore s)),
               .bool (pyUpper (pyStrip (strAfter s)) == "TRUE")) := by
      have hmem : '|' ∈ s.data := by simpa using hbar
      rw [hs]
      simp [parsedFields, truthy, hsne, pyInBar, hmem]
    obtain ⟨ok, h1, _, _, _, _, h6, h7, _⟩ :=
      handle_zone_port_webhook_eq st now ts nd _ _ hpf
    exact ⟨ok, h1, h6, h7⟩
  · intro hcase
    have hpf : parsedFields ((getKey nd "custom_reference").getD .null)
        = .ok (.null, .null) := by
      rcases hcase with h | h | ⟨s, hs, hbar⟩
      · rw [h]; rfl
      · rw [h]; rfl
      · rw [hs]
        by_cases hsne : s = ""
        · subst hsne; rfl
        · have hmem : '|' ∉ s.data := by simpa using hbar
          simp [parsedFields, truthy, hsne, pyInBar, hmem]
    obtain ⟨ok, h1, _, _, _, _, h6, h7, _⟩ :=
      handle_zone_port_webhook_eq st now ts nd _ _ hpf
    exact ⟨ok, h1, h6, h7⟩

/-- Witness for C3 at a concrete ingestion: reference `"U1|true"` stores
`user_id="U1"` and `auto_screen=true`. -/
theorem c3_custom_reference_derivation_witness :
    ∃ ok : WebhookOk,
      handle_zone_port_webhook ⟨[], 0⟩ .null "t"
        [("custom_reference", .str "U1|true")] = .ok ok ∧
      getKey ok.storedDoc "user_id" = some (.str "U1") ∧
      getKey ok.storedDoc "auto_screen" = some (.bool true) := by
  obtain ⟨ok, h1, h2, h3⟩ :=
    (c3_custom_reference_derivation ⟨[], 0⟩ .null "t"
      [("custom_reference", .str "U1|true")]).1 "U1|true" rfl (by decide)
  exact ⟨ok, h1, h2, h3⟩

/-- C4: with `autoScreen` false or absent and a successful insert, exactly
one broadcast of the freshly inserted record occurs, its
`notification_id` is the string form of the store-assigned identifier,
the forwarded record already carries that identifier, and no screening
session is created. -/
theorem c4_immediate_broadcast (st : Store) (now : Value) (ts : String)
    (nd : Doc) (uid ascr : Value)
    (hp : parsedFields ((getKey nd "custom_reference").getD .null) = .ok (uid, ascr))
    (hfalse : truthy ascr = false) :
    ∃ ok : WebhookOk, handle_zone_port_webhook st now ts nd = .ok ok ∧
      ok.screeningLaunched = false ∧
      ok.broadcasts = [broadcast_notification_to_sse ts ok.storedDoc ok.insertedId] ∧
      getKey (broadcast_notification_to_sse ts ok.storedDoc ok.insertedId)
        "notification_id" = some (.str (toString ok.insertedId)) ∧
      getKey (broadcast_notification_to_sse ts ok.storedDoc ok.insertedId)
        "data" = some (.obj ok.storedDoc) ∧
      getKey ok.storedDoc "_id" = some (.oid ok.insertedId) := by
  obtain ⟨ok, h1, h2, h3, h4, h5, _, _, h8⟩ :=
    handle_zone_port_webhook_eq st now ts nd uid ascr hp
  refine ⟨ok, h1, by rw [h4, hfalse], by rw [h5, hfalse]; rfl, ?_, ?_, by rw [h3]; exact h8⟩
  · simp [broadcast_notification_to_sse, getKey]
  · simp [broadcast_notification_to_sse, getKey]

/-- Witness for C4 at a concrete ingestion with `custom_reference`
`"U1|false"`. -/
theorem c4_immediate_broadcast_witness :
    ∃ ok : WebhookOk,
      handle_zone_port_webhook ⟨[], 0⟩ .null "t"
        [("custom_reference", .str "U1|false")] = .ok ok ∧
      ok.screeningLaunched = false ∧
      ok.broadcasts = [broadcast_notification_to_sse "t" ok.storedDoc ok.insertedId] ∧
      getKey ok.storedDoc "_id" = some (.oid ok.insertedId) := by
  obtain ⟨ok, h1, h2, h3, _, _, h6⟩ :=
    c4_immediate_broadcast ⟨[], 0⟩ .null "t"
      [("custom_reference", .str "U1|false")] (.str "U1") (.bool false) rfl rfl
  exact ⟨ok, h1, h2, h3, h6⟩

-- ---------------------------------------------------------------------------
-- Screening poll loop lemmas
-- ---------------------------------------------------------------------------

/-- A provider poll answer that reports "still pending": a decoded dict
body whose object list is empty (or missing), or whose first object is a
dict whose `screening_status` resolves to `"PENDING"`. -/
def pendingPoll : PollResponse → Bool
  | .fail => false
  | .ok body =>
    match body with
    | .obj d =>
      match (getKey d "objects").getD (.arr []) with
      | .arr [] => true
      | .arr (x :: _) =>
        match x with
        | .obj xd =>
            ((getKey xd "screening_status").getD (.str "PENDING")).isStr "PENDING"
        | _ => false
      | _ => false
    | _ => false

/-- A pending-style body neither breaks the loop nor raises, and leaves
the running status at `"PENDING"`. -/
theorem pollStep_pending (body : Value) (obj : Option Value) (status : Value)
    (h : pendingPoll (.ok body) = true) (hst : status.isStr "PENDING" = true) :
    (pollStep body obj status).2.2.1 = false ∧
    ((pollStep body obj status).2.1).isStr "PENDING" = true ∧
    (pollStep body obj status).2.2.2 = false := by
  cases body with
  | obj d =>
    unfold pendingPoll at h
    unfold pollStep
    dsimp only at h ⊢
    cases hobjects : (getKey d "objects").getD (.arr []) with
    | arr l =>
      rw [hobjects] at h
      try dsimp only at h
      cases l with
      | nil => simp [truthy, hst]
      | cons x xs =>
        try dsimp only at h
        cases x with
        | obj xd =>
          refine ⟨?_, ?_, ?_⟩
          · simp [truthy, pyIndexZero]
            exact h
          · simp [truthy, pyIndexZero]
            exact h
          · simp [truthy, pyIndexZero]
        | str s => simp at h
        | num n => simp at h
        | bool b => simp at h
        | null => simp at h
        | oid n => simp at h
        | arr l2 => simp at h
    | str s => rw [hobjects] at h; simp at h
    | num n => rw [hobjects] at h; simp at h
    | bool b => rw [hobjects] at h; simp at h
    | null => rw [hobjects] at h; simp at h
    | oid n => rw [hobjects] at h; simp at h
    | obj d2 => rw [hobjects] at h; simp at h
  | str s => simp [pendingPoll] at h
  | num n => simp [pendingPoll] at h
  | bool b => simp [pendingPoll] at h
  | null => simp [pendingPoll] at h
  | oid n => simp [pendingPoll] at h
  | arr l => simp [pendingPoll] at h

/-- If every remaining provider answer is pending-style, the loop never
breaks: the final status is still `"PENDING"` and all attempts are
consumed. -/
theorem pollLoop_pending (polls : Nat → PollResponse) (rem i : Nat)
    (obj : Option Value) (status : Value)
    (hp : ∀ j, j < rem → pendingPoll (polls (i + j)) = true)
    (hst : status.isStr "PENDING" = true) :
    ((pollLoop polls rem i obj status).2.1).isStr "PENDING" = true ∧
    (pollLoop polls rem i obj status).2.2.length = rem := by
  induction rem generalizing i obj status with
  | zero => exact ⟨hst, rfl⟩
  | succ rem ih =>
    have h0 : pendingPoll (polls i) = true := by
      simpa using hp 0 (Nat.succ_pos rem)
    have hrest : ∀ j, j < rem → pendingPoll (polls (i + 1 + j)) = true := by
      intro j hj
      have hh := hp (j + 1) (by omega)
      have : i + (j + 1) = i + 1 + j := by omega
      rwa [this] at hh
    cases hpolls : polls i with
    | fail => rw [hpolls] at h0; simp [pendingPoll] at h0
    | ok body =>
      rw [hpolls] at h0
      obtain ⟨hbroke, hpend, _⟩ := pollStep_pending body obj status h0 hst
      have hih := ih (i + 1) (pollStep body obj status).1
        (pollStep body obj status).2.1 hrest hpend
      simp only [pollLoop, hpolls, hbroke]
      simpa using hih

/-- C1 (amended): when the provider answers pending-style on all 50 poll
attempts of a session that reached polling, the session ends `TimedOut`
with no store update — but the wrapper still fetches the stored record
and broadcasts it, unchanged, to subscribers. -/
theorem c1_timeout_no_update_but_broadcast (polls : Nat → PollResponse)
    (nd : Doc) (insertedId : Nat) (st : Store) (ts : String) (imo : String)
    (rd : Doc) (doc : Doc)
    (himo : extractImo nd = .ok imo)
    (htid : truthy ((getKey rd "transaction_id").getD .null) = true)
    (hpend : ∀ j, j < 50 → pendingPoll (polls j) = true)
    (hdoc : find_one st insertedId = some doc) :
    (screen_vessel_and_update_notification true (.ok (.obj rd)) polls nd
      insertedId st).status = .TimedOut ∧
    (screen_vessel_and_update_notification true (.ok (.obj rd)) polls nd
      insertedId st).updatePerformed = none ∧
    (screen_vessel_and_update_notification true (.ok (.obj rd)) polls nd
      insertedId st).store = st ∧
    (screen_vessel_and_update_notification true (.ok (.obj rd)) polls nd
      insertedId st).events.length = 50 ∧
    (screen_vessel_and_update_notification_with_broadcast true (.ok (.obj rd))
      polls nd insertedId st ts).2
      = [broadcast_notification_to_sse ts
          (setKey doc "_id" (.str (toString insertedId))) insertedId] := by
  have hp : ∀ j, j < 50 → pendingPoll (polls (0 + j)) = true := by
    intro j hj; simpa using hpend j hj
  obtain ⟨hpendSt, hlen⟩ :=
    pollLoop_pending polls 50 0 none (.str "PENDING") hp rfl
  have hrun : screen_vessel_and_update_notification true (.ok (.obj rd)) polls
      nd insertedId st
      = ⟨some imo, (pollLoop polls 50 0 none (.str "PENDING")).2.2, none,
         .TimedOut, st⟩ := by
    simp only [screen_vessel_and_update_notification, Bool.not_true,
      Bool.false_eq_true, if_false, himo, htid, Bool.not_true, hpendSt,
      Bool.or_true, if_true]
  refine ⟨by rw [hrun], by rw [hrun], by rw [hrun], by rw [hrun]; exact hlen, ?_⟩
  unfold screen_vessel_and_update_notification_with_broadcast
  rw [hrun]
  simpa using by rw [hdoc]

/-- C1 counterexample: a concrete session whose provider answers an empty
object list on all 50 attempts ends `TimedOut` with no store update, yet a
broadcast of the record does occur — refuting the claim's "no broadcast". -/
theorem c1_timeout_claim_counterexample :
    (screen_vessel_and_update_notification true
      (.ok (.obj [("transaction_id", .str "T")]))
      (fun _ => .ok (.obj [("objects", .arr [])]))
      [("vessel_information", .obj [("imo", .num 123)]), ("_id", .oid 0)] 0
      ⟨[(0, [("vessel_information", .obj [("imo", .num 123)]),
             ("_id", .oid 0)])], 1⟩).status = .TimedOut ∧
    (screen_vessel_and_update_notification true
      (.ok (.obj [("transaction_id", .str "T")]))
      (fun _ => .ok (.obj [("objects", .arr [])]))
      [("vessel_information", .obj [("imo", .num 123)]), ("_id", .oid 0)] 0
      ⟨[(0, [("vessel_information", .obj [("imo", .num 123)]),
             ("_id", .oid 0)])], 1⟩).updatePerformed = none ∧
    (screen_vessel_and_update_notification_with_broadcast true
      (.ok (.obj [("transaction_id", .str "T")]))
      (fun _ => .ok (.obj [("objects", .arr [])]))
      [("vessel_information", .obj [("imo", .num 123)]), ("_id", .oid 0)] 0
      ⟨[(0, [("vessel_information", .obj [("imo", .num 123)]),
             ("_id", .oid 0)])], 1⟩ "ts").2.length = 1 := by
  refine ⟨rfl, rfl, rfl⟩

/-- Witness for C1 (amended) at the same concrete session. -/
theorem c1_timeout_no_update_but_broadcast_witness :
    (screen_vessel_and_update_notification true
      (.ok (.obj [("transaction_id", .str "T")]))
      (fun _ => .ok (.obj [("objects", .arr [])]))
      [("notification", .obj [("vessel_information", .obj [("imo", .num 9)])])]
      0 ⟨[(0, [("k", .str "v")])], 1⟩).status = .TimedOut ∧
    (screen_vessel_and_update_notification true
      (.ok (.obj [("transaction_id", .str "T")]))
      (fun _ => .ok (.obj [("objects", .arr [])]))
      [("notification", .obj [("vessel_information", .obj [("imo", .num 9)])])]
      0 ⟨[(0, [("k", .str "v")])], 1⟩).updatePerformed = none ∧
    (screen_vessel_and_update_notification_with_broadcast true
      (.ok (.obj [("transaction_id", .str "T")]))
      (fun _ => .ok (.obj [("objects", .arr [])]))
      [("notification", .obj [("vessel_information", .obj [("imo", .num 9)])])]
      0 ⟨[(0, [("k", .str "v")])], 1⟩ "ts").2
      = [broadcast_notification_to_sse "ts"
          (setKey [("k", .str "v")] "_id" (.str (toString 0))) 0] := by
  obtain ⟨h1, h2, _, _, h5⟩ :=
    c1_timeout_no_update_but_broadcast
      (fun _ => .ok (.obj [("objects", .arr [])]))
      [("notification", .obj [("vessel_information", .obj [("imo", .num 9)])])]
      0 ⟨[(0, [("k", .str "v")])], 1⟩ "ts" "9" [("transaction_id", .str "T")]
      [("k", .str "v")] rfl rfl (fun j _ => rfl) rfl
  exact ⟨h1, h2, h5⟩

/-- C2 (code-bug evidence): on a payload carrying no vessel identifier
under either tolerated shape, the extraction step does not fail — Python's
`str(None)` yields the string `"None"` — and a registration request is
still issued to the provider with `registered_name="None"`, contradicting
the specified terminal Failure with no registration. -/
theorem c2_missing_imo_still_registers :
    extractImo [] = .ok "None" ∧
    (screen_vessel_and_update_notification true .fail (fun _ => .fail) [] 0
      ⟨[], 0⟩).registrationSent = some "None" ∧
    (screen_vessel_and_update_notification true .fail (fun _ => .fail) [] 0
      ⟨[], 0⟩).status = .Failed := by
  exact ⟨rfl, rfl, rfl⟩

-- ---------------------------------------------------------------------------
-- C5: graduated polling schedule
-- ---------------------------------------------------------------------------

/-- The attempt trace of one full poll loop run. -/
def pollTrace (polls : Nat → PollResponse) : List PollEvent :=
  (pollLoop polls 50 0 none (.str "PENDING")).2.2

/-- Unfolding of one failed-transport poll attempt. -/
theorem pollLoop_succ_fail (polls : Nat → PollResponse) (rem i : Nat)
    (obj : Option Value) (status : Value) (hpolls : polls i = .fail) :
    pollLoop polls (rem + 1) i obj status =
      ((pollLoop polls rem (i + 1) obj status).1,
       (pollLoop polls rem (i + 1) obj status).2.1,
       ⟨i, true, some (poll_interval i)⟩ ::
         (pollLoop polls rem (i + 1) obj status).2.2) := by
  simp [pollLoop, hpolls]

/-- Unfolding of a successful poll attempt that breaks the loop. -/
theorem pollLoop_succ_ok_break (polls : Nat → PollResponse) (rem i : Nat)
    (obj : Option Value) (status body : Value) (hpolls : polls i = .ok body)
    (hbroke : (pollStep body obj status).2.2.1 = true) :
    pollLoop polls (rem + 1) i obj status =
      ((pollStep body obj status).1, (pollStep body obj status).2.1,
       [⟨i, false, none⟩]) := by
  simp [pollLoop, hpolls, hbroke]

/-- Unfolding of a successful poll attempt that continues the loop. -/
theorem pollLoop_succ_ok_cont (polls : Nat → PollResponse) (rem i : Nat)
    (obj : Option Value) (status body : Value) (hpolls : polls i = .ok body)
    (hbroke : (pollStep body obj status).2.2.1 = false) :
    pollLoop polls (rem + 1) i obj status =
      ((pollLoop polls rem (i + 1) (pollStep body obj status).1
          (pollStep body obj status).2.1).1,
       (pollLoop polls rem (i + 1) (pollStep body obj status).1
          (pollStep body obj status).2.1).2.1,
       ⟨i, (pollStep body obj status).2.2.2, some (poll_interval i)⟩ ::
         (pollLoop polls rem (i + 1) (pollStep body obj status).1
            (pollStep body obj status).2.1).2.2) := by
  simp [pollLoop, hpolls, hbroke]

/-- Trace entries of a loop run starting at attempt `i`, stated for one
cons step: what holds of the tail shifted by one holds of the whole. -/
theorem traceShape_cons (ev : PollEvent) (tail : List PollEvent) (i : Nat)
    (hev : ev.idx = i ∧ (ev.slept = some (poll_interval i) ∨
      (ev.slept = none ∧ ev.isError = false ∧ tail = [])))
    (htail : ∀ k (h : k < tail.length),
      (tail.get ⟨k, h⟩).idx = i + 1 + k ∧
      ((tail.get ⟨k, h⟩).slept = some (poll_interval (i + 1 + k)) ∨
       ((tail.get ⟨k, h⟩).slept = none ∧ (tail.get ⟨k, h⟩).isError = false ∧
        k + 1 = tail.length))) :
    ∀ k (h : k < (ev :: tail).length),
      ((ev :: tail).get ⟨k, h⟩).idx = i + k ∧
      (((ev :: tail).get ⟨k, h⟩).slept = some (poll_interval (i + k)) ∨
       (((ev :: tail).get ⟨k, h⟩).slept = none ∧
        ((ev :: tail).get ⟨k, h⟩).isError = false ∧
        k + 1 = (ev :: tail).length)) := by
  intro k h
  cases k with
  | zero =>
    obtain ⟨h1, h2⟩ := hev
    refine ⟨by simpa using h1, ?_⟩
    rcases h2 with h2 | ⟨h2, h3, h4⟩
    · left; simpa using h2
    · right
      refine ⟨by simpa using h2, by simpa using h3, by simp [h4]⟩
  | succ k =>
    have hk : k < tail.length := by simpa using h
    obtain ⟨h1, h2⟩ := htail k hk
    have hadd : i + 1 + k = i + (k + 1) := by omega
    refine ⟨by rw [hadd] at h1; simpa using h1, ?_⟩
    rcases h2 with h2 | ⟨h2, h3, h4⟩
    · left; rw [hadd] at h2; simpa using h2
    · right
      refine ⟨by simpa using h2, by simpa using h3, by simp; omega⟩

/-- Shape of the poll-loop trace: at most `rem` attempts, consecutive
0-based attempt indices starting at `i`, and every attempt sleeps its
index's interval except a breaking final attempt (which is never an
error-branch attempt). -/
theorem pollLoop_events (polls : Nat → PollResponse) (rem i : Nat)
    (obj : Option Value) (status : Value) :
    (pollLoop polls rem i obj status).2.2.length ≤ rem ∧
    ∀ k (h : k < (pollLoop polls rem i obj status).2.2.length),
      ((pollLoop polls rem i obj status).2.2.get ⟨k, h⟩).idx = i + k ∧
      (((pollLoop polls rem i obj status).2.2.get ⟨k, h⟩).slept
          = some (poll_interval (i + k)) ∨
       (((pollLoop polls rem i obj status).2.2.get ⟨k, h⟩).slept = none ∧
        ((pollLoop polls rem i obj status).2.2.get ⟨k, h⟩).isError = false ∧
        k + 1 = (pollLoop polls rem i obj status).2.2.length)) := by
  induction rem generalizing i obj status with
  | zero => simp [pollLoop]
  | succ rem ih =>
    cases hpolls : polls i with
    | fail =>
      rw [pollLoop_succ_fail polls rem i obj status hpolls]
      obtain ⟨ihlen, ihget⟩ := ih (i + 1) obj status
      refine ⟨by simpa using Nat.succ_le_succ ihlen, ?_⟩
      exact traceShape_cons _ _ i ⟨rfl, Or.inl rfl⟩ ihget
    | ok body =>
      cases hbroke : (pollStep body obj status).2.2.1 with
      | true =>
        rw [pollLoop_succ_ok_break polls rem i obj status body hpolls hbroke]
        refine ⟨by simp, ?_⟩
        exact traceShape_cons _ _ i ⟨rfl, Or.inr ⟨rfl, rfl, rfl⟩⟩ (by simp)
      | false =>
        rw [pollLoop_succ_ok_cont polls rem i obj status body hpolls hbroke]
        obtain ⟨ihlen, ihget⟩ :=
          ih (i + 1) (pollStep body obj status).1 (pollStep body obj status).2.1
        refine ⟨by simpa using Nat.succ_le_succ ihlen, ?_⟩
        exact traceShape_cons _ _ i ⟨rfl, Or.inl rfl⟩ ihget

/-- C5: the poll loop performs at most 50 attempts with consecutive
attempt numbering (errors consume their attempt without resetting the
counter), every non-breaking attempt — error attempts included — sleeps
its attempt's interval, and the interval of 1-based attempt `n` is 3
seconds for attempts 1–20, 5 seconds for 21–32 and 10 seconds for
33–50. -/
theorem c5_graduated_polling (polls : Nat → PollResponse) :
    (pollTrace polls).length ≤ 50 ∧
    (∀ n, 1 ≤ n → n ≤ 20 → poll_interval (n - 1) = 3) ∧
    (∀ n, 21 ≤ n → n ≤ 32 → poll_interval (n - 1) = 5) ∧
    (∀ n, 33 ≤ n → n ≤ 50 → poll_interval (n - 1) = 10) ∧
    ∀ k (h : k < (pollTrace polls).length),
      ((pollTrace polls).get ⟨k, h⟩).idx = k ∧
      (((pollTrace polls).get ⟨k, h⟩).isError = true →
        ((pollTrace polls).get ⟨k, h⟩).slept = some (poll_interval k)) ∧
      (((pollTrace polls).get ⟨k, h⟩).slept = some (poll_interval k) ∨
       (((pollTrace polls).get ⟨k, h⟩).slept = none ∧
        k + 1 = (pollTrace polls).length)) := by
  simp only [pollTrace]
  obtain ⟨hlen, hget⟩ := pollLoop_events polls 50 0 none (.str "PENDING")
  refine ⟨hlen, ?_, ?_, ?_, ?_⟩
  · intro n h1 h2; rw [poll_interval, if_pos (by omega)]
  · intro n h1 h2; rw [poll_interval, if_neg (by omega), if_pos (by omega)]
  · intro n h1 h2; rw [poll_interval, if_neg (by omega), if_neg (by omega)]
  · intro k h
    obtain ⟨hidx, hslept⟩ := hget k h
    refine ⟨by simpa using hidx, ?_, ?_⟩
    · intro herr
      rcases hslept with hs | ⟨_, hs2, _⟩
      · simpa using hs
      · rw [herr] at hs2; cases hs2
    · rcases hslept with hs | ⟨hs1, _, hs3⟩
      · left; simpa using hs
      · right; exact ⟨hs1, hs3⟩

/-- Witness for C5: on a provider that always fails transport, every
attempt is consumed; attempt index 24 (1-based attempt 25) slept 5
seconds. -/
theorem c5_graduated_polling_witness :
    (pollTrace (fun _ => PollResponse.fail)).length ≤ 50 ∧
    poll_interval 24 = 5 ∧
    ((pollTrace (fun _ => PollResponse.fail)).get ⟨24, by decide⟩).idx = 24 ∧
    ((pollTrace (fun _ => PollResponse.fail)).get ⟨24, by decide⟩).slept
      = some 5 := by
  obtain ⟨hlen, hi1, hi2, hi3, hget⟩ :=
    c5_graduated_polling (fun _ => PollResponse.fail)
  have h25 := hi2 25 (by decide) (by decide)
  obtain ⟨hidx, herr, _⟩ := hget 24 (by decide)
  refine ⟨hlen, h25, hidx, ?_⟩
  have := herr (by decide)
  rw [this]
  exact congrArg some h25

-- ---------------------------------------------------------------------------
-- C6: finalize structure
-- ---------------------------------------------------------------------------

/-- All elements of a decoded `screen_results` list are dicts. -/
def allDicts (l : List Value) : Bool :=
  l.all (fun v => match v with | .obj _ => true | _ => false)

/-- The claim's reading of a named check extraction: status of the first
check-list entry whose `check` equals the tag exactly, or null when no
entry carries the tag. -/
def firstTagStatus (l : List Value) (tag : String) : Value :=
  match l.find? (fun v => match v with
    | .obj d => ((getKey d "check").getD .null).isStr tag
    | _ => false) with
  | some (.obj d) => (getKey d "status").getD .null
  | _ => .null

/-- On a list of dict entries the source's `get_status` loop computes
exactly the first-match extraction. -/
theorem findStatus_eq_firstTagStatus (l : List Value) (tag : String)
    (h : allDicts l = true) :
    findStatus l tag = .ok (firstTagStatus l tag) := by
  induction l with
  | nil => rfl
  | cons x rest ih =>
    cases x with
    | obj d =>
      have hrest : allDicts rest = true := by
        have h2 := h
        simp only [allDicts, List.all_cons, Bool.and_eq_true] at h2
        exact h2.2
      by_cases hc : ((getKey d "check").getD .null).isStr tag = true
      · simp [findStatus, firstTagStatus, List.find?, hc]
      · simp only [Bool.not_eq_true] at hc
        simp [findStatus, firstTagStatus, List.find?, hc, ih hrest,
          firstTagStatus]
    | str s => simp [allDicts] at h
    | num n => simp [allDicts] at h
    | bool b => simp [allDicts] at h
    | null => simp [allDicts] at h
    | oid n => simp [allDicts] at h
    | arr l2 => simp [allDicts] at h

/-- Updating a stored record by identifier rewrites exactly that record's
field. -/
theorem find_one_update_one_set (docs : List (Nat × Doc)) (nid id : Nat)
    (f : String) (v : Value) (d : Doc)
    (h : find_one ⟨docs, nid⟩ id = some d) :
    find_one (update_one_set ⟨docs, nid⟩ id f v) id = some (setKey d f v) := by
  induction docs with
  | nil => simp [find_one, List.find?] at h
  | cons p rest ih =>
    by_cases hp : p.1 = id
    · simp [find_one, update_one_set, List.find?, hp] at h ⊢
      rw [h]
    · simp only [find_one, update_one_set, List.map_cons, if_neg hp] at h ⊢
      simp only [List.find?, decide_eq_true_eq, hp, if_false] at h ⊢
      have := ih (by simpa [find_one] using h)
      simpa [find_one, update_one_set] using this

/-- C6: a poll loop ending with a non-`"PENDING"` status updates the
record in the store by its identifier with a screening-result structure
carrying the transaction identifier, the terminal status, and, for each
of the four named tags, the status of the first check-list entry whose
`check` equals the tag exactly — null when the tag is absent. -/
theorem c6_screening_result_structure (polls : Nat → PollResponse) (nd : Doc)
    (insertedId : Nat) (st : Store) (imo : String) (rd : Doc) (od : Doc)
    (status : Value) (evs : List PollEvent) (srl : List Value) (origDoc : Doc)
    (himo : extractImo nd = .ok imo)
    (htid : truthy ((getKey rd "transaction_id").getD .null) = true)
    (hpoll : pollLoop polls 50 0 none (.str "PENDING")
      = (some (.obj od), status, evs))
    (hstatus : status.isStr "PENDING" = false)
    (hne : truthy (.obj od) = true)
    (hsr : (getKey od "screen_results").getD (.arr []) = .arr srl)
    (hall : allDicts srl = true)
    (horig : find_one st insertedId = some origDoc) :
    ∃ res : Doc,
      screen_vessel_and_update_notification true (.ok (.obj rd)) polls nd
        insertedId st
        = ⟨some imo, evs, some res, .Resolved,
           update_one_set st insertedId "screening_results" (.obj res)⟩ ∧
      find_one (update_one_set st insertedId "screening_results" (.obj res))
        insertedId = some (setKey origDoc "screening_results" (.obj res)) ∧
      getKey res "transaction_id" = some ((getKey rd "transaction_id").getD .null) ∧
      getKey res "overall_severity" = some status ∧
      getKey res "company_sanctions" = some (firstTagStatus srl "COMPANY_SANCTIONS") ∧
      getKey res "ship_sanctions" = some (firstTagStatus srl "SANCTIONS") ∧
      getKey res "ship_movement" = some (firstTagStatus srl "SHIP_MOVE_HIST") ∧
      getKey res "psc" = some (firstTagStatus srl "PSC_HISTORY") := by
  have hget : ∀ tag, get_status ((getKey od "screen_results").getD (.arr [])) tag
      = .ok (firstTagStatus srl tag) := by
    intro tag
    rw [hsr]
    simp only [get_status, pyIter, Except.bind]
    exact findStatus_eq_firstTagStatus srl tag hall
  have hfin : finalizeScreening ((getKey rd "transaction_id").getD .null) status
      (.obj od)
      = .ok [("transaction_id", (getKey rd "transaction_id").getD .null),
             ("overall_severity", status),
             ("company_sanctions", firstTagStatus srl "COMPANY_SANCTIONS"),
             ("ship_sanctions", firstTagStatus srl "SANCTIONS"),
             ("ship_movement", firstTagStatus srl "SHIP_MOVE_HIST"),
             ("psc", firstTagStatus srl "PSC_HISTORY")] := by
    simp only [finalizeScreening, pure, Except.pure, bind, Except.bind, hget]
  refine ⟨[("transaction_id", (getKey rd "transaction_id").getD .null),
           ("overall_severity", status),
           ("company_sanctions", firstTagStatus srl "COMPANY_SANCTIONS"),
           ("ship_sanctions", firstTagStatus srl "SANCTIONS"),
           ("ship_movement", firstTagStatus srl "SHIP_MOVE_HIST"),
           ("psc", firstTagStatus srl "PSC_HISTORY")], ?_,
          find_one_update_one_set st.docs st.nextId insertedId _ _ _
            (by rw [← horig]), rfl, rfl, rfl, rfl, rfl, rfl⟩
  simp only [screen_vessel_and_update_notification, Bool.not_true,
    Bool.false_eq_true, if_false, himo, htid, hpoll, truthyOpt, hne, hstatus,
    Bool.not_true, Bool.or_false, Option.getD_some, hfin]

/-- Witness for C6: a provider resolving `"CLEAR"` on the 3rd poll with
checks `[(check SANCTIONS, status NONE)]` yields a stored record whose
`screening_results` has `ship_sanctions="NONE"` and
`company_sanctions=null`. -/
theorem c6_screening_result_structure_witness :
    ∃ res : Doc,
      (screen_vessel_and_update_notification true
        (.ok (.obj [("transaction_id", .str "T")]))
        (fun i => if i < 2 then .ok (.obj [("objects", .arr [])])
          else .ok (.obj [("objects",
            .arr [.obj [("screening_status", .str "CLEAR"),
              ("screen_results", .arr [.obj [("check", .str "SANCTIONS"),
                ("status", .str "NONE")]])]])]))
        [("k", .str "v")] 0 ⟨[(0, [("k", .str "v")])], 1⟩).updatePerformed
        = some res ∧
      getKey res "ship_sanctions" = some (.str "NONE") ∧
      getKey res "company_sanctions" = some .null := by
  obtain ⟨res, h1, h2, h3, h4, h5, h6, h7, h8⟩ :=
    c6_screening_result_structure
      (fun i => if i < 2 then .ok (.obj [("objects", .arr [])])
        else .ok (.obj [("objects",
          .arr [.obj [("screening_status", .str "CLEAR"),
            ("screen_results", .arr [.obj [("check", .str "SANCTIONS"),
              ("status", .str "NONE")]])]])]))
      [("k", .str "v")] 0 ⟨[(0, [("k", .str "v")])], 1⟩ "None"
      [("transaction_id", .str "T")]
      [("screening_status", .str "CLEAR"),
       ("screen_results", .arr [.obj [("check", .str "SANCTIONS"),
         ("status", .str "NONE")]])]
      (.str "CLEAR")
      [⟨0, false, some 3⟩, ⟨1, false, some 3⟩, ⟨2, false, none⟩]
      [.obj [("check", .str "SANCTIONS"), ("status", .str "NONE")]]
      [("k", .str "v")]
      rfl rfl (by rfl) rfl rfl rfl rfl rfl
  exact ⟨res, by rw [h1], h6, h5⟩

-- ---------------------------------------------------------------------------
-- Broadcast hub lemmas (C7, C8, C10)
-- ---------------------------------------------------------------------------

theorem put_nowait_ok (c : Channel) (msg : String) (hf : c.faulty = false)
    (hroom : c.maxsize = 0 ∨ c.queue.length < c.maxsize) :
    put_nowait c msg = (.ok, { c with queue := c.queue ++ [msg] }) := by
  unfold put_nowait
  rw [if_neg (by simp [hf]), if_neg (by rintro ⟨h1, h2⟩; rcases hroom with h | h <;> omega)]

theorem put_nowait_full (c : Channel) (msg : String) (hf : c.faulty = false)
    (hfull : 0 < c.maxsize ∧ c.maxsize ≤ c.queue.length) :
    put_nowait c msg = (.full, c) := by
  unfold put_nowait
  rw [if_neg (by simp [hf]), if_pos hfull]

theorem put_nowait_exn (c : Channel) (msg : String) (hf : c.faulty = true) :
    put_nowait c msg = (.exn, c) := by
  unfold put_nowait
  rw [if_pos hf]

theorem put_nowait_id (c : Channel) (msg : String) :
    ((put_nowait c msg).2).id = c.id := by
  unfold put_nowait
  by_cases h1 : c.faulty
  · simp [h1]
  · by_cases h2 : 0 < c.maxsize ∧ c.maxsize ≤ c.queue.length
    · simp [h1, h2]
    · simp [h1, h2]

/-- A channel with a working, non-full outbox receives the published
message. -/
theorem deliverAll_delivers (cs : List Channel) (msg : String) (c : Channel)
    (hmem : c ∈ cs) (hf : c.faulty = false)
    (hroom : c.maxsize = 0 ∨ c.queue.length < c.maxsize) :
    { c with queue := c.queue ++ [msg] } ∈ deliverAll cs msg := by
  unfold deliverAll
  rw [List.mem_filterMap]
  exact ⟨c, hmem, by rw [put_nowait_ok c msg hf hroom]⟩

/-- A channel whose enqueue does not succeed is absent from the delivery
result. -/
theorem deliverAll_evicts (cs : List Channel) (msg : String) (c : Channel)
    (hmem : c ∈ cs) (hnodup : (cs.map Channel.id).Nodup)
    (hbad : (put_nowait c msg).1 ≠ .ok) :
    ∀ d ∈ deliverAll cs msg, d.id ≠ c.id := by
  intro d hd heq
  unfold deliverAll at hd
  rw [List.mem_filterMap] at hd
  obtain ⟨a, ha, hfa⟩ := hd
  have hda : d.id = a.id ∧ (put_nowait a msg).1 = .ok := by
    cases hpn : put_nowait a msg with
    | mk o c2 =>
      rw [hpn] at hfa
      cases o with
      | ok =>
          have hc2 : c2 = d := by simpa using hfa
          have hid := put_nowait_id a msg
          rw [hpn] at hid
          exact ⟨by rw [← hc2]; exact hid, rfl⟩
      | full => simp at hfa
      | exn => simp at hfa
  have hac : a = c :=
    List.inj_on_of_nodup_map hnodup ha hmem (by rw [← hda.1, heq])
  rw [hac] at hda
  exact hbad hda.2

theorem mem_isEmpty_false (cs : List Channel) (c : Channel) (hmem : c ∈ cs) :
    cs.isEmpty = false := by
  cases cs with
  | nil => cases hmem
  | cons a t => rfl

theorem broadcast_connections (st : HubState) (data : Value)
    (h : st.active_connections.isEmpty = false) :
    (broadcast_notification st data).active_connections
      = deliverAll st.active_connections
          (format_sse_message (sanitize_value data)) := by
  unfold broadcast_notification
  rw [h]
  rfl

theorem heartbeat_connections (st : HubState) (ts : String)
    (h : st.active_connections.isEmpty = false) :
    (send_heartbeat st ts).active_connections
      = deliverAll st.active_connections (heartbeat_message ts) := by
  unfold send_heartbeat
  rw [h]
  rfl

/-- C7: a Publish enqueues the sanitized, serialized message to every
registered channel without blocking; a channel whose outbox is full is
deregistered as a side effect, while every other registered channel with
free outbox capacity still receives the message. -/
theorem c7_publish_evicts_slow_consumers (st : HubState) (data : Value)
    (c : Channel) (hmem : c ∈ st.active_connections)
    (hnodup : (st.active_connections.map Channel.id).Nodup)
    (hf : c.faulty = false) :
    ((0 < c.maxsize ∧ c.maxsize ≤ c.queue.length) →
      ∀ d ∈ (broadcast_notification st data).active_connections, d.id ≠ c.id) ∧
    ((c.maxsize = 0 ∨ c.queue.length < c.maxsize) →
      { c with queue := c.queue ++
          [format_sse_message (sanitize_value data)] }
        ∈ (broadcast_notification st data).active_connections) := by
  have hne := mem_isEmpty_false _ c hmem
  rw [broadcast_connections st data hne]
  constructor
  · intro hfull
    exact deliverAll_evicts _ _ c hmem hnodup
      (by rw [put_nowait_full c _ hf hfull]; simp)
  · intro hroom
    exact deliverAll_delivers _ _ c hmem hf hroom

/-- Witness for C7: with one full channel and one free channel, a publish
evicts the full one and delivers to the free one. -/
theorem c7_publish_evicts_slow_consumers_witness :
    (∀ d ∈ (broadcast_notification
        ⟨[⟨1, ["m"], 1, false⟩, ⟨2, [], 50, false⟩], 100⟩
        (.str "x")).active_connections, d.id ≠ 1) ∧
    (⟨2, [format_sse_message (sanitize_value (.str "x"))], 50, false⟩ : Channel)
      ∈ (broadcast_notification
        ⟨[⟨1, ["m"], 1, false⟩, ⟨2, [], 50, false⟩], 100⟩
        (.str "x")).active_connections := by
  have h1 := (c7_publish_evicts_slow_consumers
    ⟨[⟨1, ["m"], 1, false⟩, ⟨2, [], 50, false⟩], 100⟩ (.str "x")
    ⟨1, ["m"], 1, false⟩ (by simp) (by simp) rfl).1 (by simp)
  have h2 := (c7_publish_evicts_slow_consumers
    ⟨[⟨1, ["m"], 1, false⟩, ⟨2, [], 50, false⟩], 100⟩ (.str "x")
    ⟨2, [], 50, false⟩ (by simp) (by simp) rfl).2 (by simp)
  exact ⟨h1, h2⟩

/-- C10: any exception raised while enqueuing to a channel — not only a
queue-full condition — causes that channel to be deregistered, during
Publish and Heartbeat alike, while delivery to the remaining channels
continues. -/
theorem c10_evict_on_any_exception (st : HubState) (data : Value) (ts : String)
    (c : Channel) (hmem : c ∈ st.active_connections)
    (hnodup : (st.active_connections.map Channel.id).Nodup)
    (hfaulty : c.faulty = true) :
    (∀ d ∈ (broadcast_notification st data).active_connections, d.id ≠ c.id) ∧
    (∀ d ∈ (send_heartbeat st ts).active_connections, d.id ≠ c.id) ∧
    (∀ d ∈ st.active_connections, d.faulty = false →
      (d.maxsize = 0 ∨ d.queue.length < d.maxsize) →
      { d with queue := d.queue ++ [format_sse_message (sanitize_value data)] }
          ∈ (broadcast_notification st data).active_connections ∧
      { d with queue := d.queue ++ [heartbeat_message ts] }
          ∈ (send_heartbeat st ts).active_connections) := by
  have hne := mem_isEmpty_false _ c hmem
  rw [broadcast_connections st data hne, heartbeat_connections st ts hne]
  refine ⟨?_, ?_, ?_⟩
  · exact deliverAll_evicts _ _ c hmem hnodup
      (by rw [put_nowait_exn c _ hfaulty]; simp)
  · exact deliverAll_evicts _ _ c hmem hnodup
      (by rw [put_nowait_exn c _ hfaulty]; simp)
  · intro d hd hdf hroom
    exact ⟨deliverAll_delivers _ _ d hd hdf hroom,
           deliverAll_delivers _ _ d hd hdf hroom⟩

/-- Witness for C10: a faulty channel is removed by both Publish and
Heartbeat while a healthy channel still receives both messages. -/
theorem c10_evict_on_any_exception_witness :
    (∀ d ∈ (broadcast_notification
        ⟨[⟨1, [], 50, true⟩, ⟨2, [], 50, false⟩], 100⟩
        (.str "x")).active_connections, d.id ≠ 1) ∧
    (∀ d ∈ (send_heartbeat
        ⟨[⟨1, [], 50, true⟩, ⟨2, [], 50, false⟩], 100⟩
        "t").active_connections, d.id ≠ 1) ∧
    (⟨2, [heartbeat_message "t"], 50, false⟩ : Channel)
      ∈ (send_heartbeat
        ⟨[⟨1, [], 50, true⟩, ⟨2, [], 50, false⟩], 100⟩ "t").active_connections := by
  obtain ⟨h1, h2, h3⟩ := c10_evict_on_any_exception
    ⟨[⟨1, [], 50, true⟩, ⟨2, [], 50, false⟩], 100⟩ (.str "x") "t"
    ⟨1, [], 50, true⟩ (by simp) (by simp) rfl
  exact ⟨h1, h2, (h3 ⟨2, [], 50, false⟩ (by simp) rfl (by simp)).2⟩

-- ---------------------------------------------------------------------------
-- C8: registration capacity
-- ---------------------------------------------------------------------------

/-- An operation on the hub's channel set. -/
inductive HubOp where
  | register : Channel → HubOp
  | deregister : Nat → HubOp

def applyHubOp (st : HubState) : HubOp → HubState
  | .register c => (connect st c).2
  | .deregister cid => disconnect st cid

/-- Running a sequence of register/deregister operations from a fresh
manager. -/
def runHubOps (ops : List HubOp) : HubState :=
  ops.foldl applyHubOp initHub

theorem connect_preserves (st : HubState) (c : Channel)
    (h : st.active_connections.length ≤ st.max_connections) :
    (connect st c).2.active_connections.length
      ≤ (connect st c).2.max_connections ∧
    (connect st c).2.max_connections = st.max_connections := by
  unfold connect
  by_cases h1 : st.active_connections.length ≥ st.max_connections
  · rw [if_pos h1]
    exact ⟨h, rfl⟩
  · rw [if_neg h1]
    by_cases h2 : st.active_connections.any (fun d => d.id = c.id)
    · rw [if_pos h2]
      exact ⟨h, rfl⟩
    · rw [if_neg h2]
      refine ⟨?_, rfl⟩
      show (st.active_connections ++ [c]).length ≤ st.max_connections
      simp only [List.length_append, List.length_cons, List.length_nil]
      omega

theorem runHubOps_invariant (ops : List HubOp) (st : HubState)
    (h : st.active_connections.length ≤ st.max_connections) :
    (ops.foldl applyHubOp st).active_connections.length
      ≤ (ops.foldl applyHubOp st).max_connections ∧
    (ops.foldl applyHubOp st).max_connections = st.max_connections := by
  induction ops generalizing st with
  | nil => exact ⟨h, rfl⟩
  | cons op rest ih =>
    cases op with
    | register c =>
      have hc := connect_preserves st c h
      have hr := ih (connect st c).2 hc.1
      exact ⟨hr.1, hr.2.trans hc.2⟩
    | deregister cid =>
      have hd : (disconnect st cid).active_connections.length
          ≤ (disconnect st cid).max_connections := by
        unfold disconnect
        exact le_trans (List.length_filter_le _ _) h
      have hr := ih (disconnect st cid) hd
      exact ⟨hr.1, hr.2⟩

/-- C8: across any sequence of register/deregister operations the live
channel count never exceeds the fixed maximum of 100; a registration
arriving at or above the cap is rejected with the state unchanged (the
stream endpoint answering 503), and a registration below the cap admits
the channel while leaving existing channels in place. -/
theorem c8_capacity_bound (ops : List HubOp) (st : HubState) (c : Channel)
    (cid : Nat) :
    (runHubOps ops).active_connections.length ≤ 100 ∧
    (st.max_connections ≤ st.active_connections.length →
      connect st c = (false, st)) ∧
    (st.active_connections.length < st.max_connections →
      (connect st c).1 = true ∧
      (∃ d ∈ (connect st c).2.active_connections, d.id = c.id) ∧
      ∀ d ∈ st.active_connections, d ∈ (connect st c).2.active_connections) ∧
    (st.max_connections ≤ st.active_connections.length →
      zone_port_events_stream_register st cid = .error 503) := by
  have hcap : st.max_connections ≤ st.active_connections.length →
      connect st c = (false, st) := by
    intro hge
    unfold connect
    rw [if_pos hge]
  refine ⟨?_, hcap, ?_, ?_⟩
  · have := runHubOps_invariant ops initHub (by simp [initHub])
    unfold runHubOps
    have h100 : (ops.foldl applyHubOp initHub).max_connections = 100 := this.2
    rw [← h100]
    exact this.1
  · intro hlt
    unfold connect
    rw [if_neg (by omega)]
    by_cases h2 : st.active_connections.any (fun d => d.id = c.id)
    · rw [if_pos h2]
      obtain ⟨d, hd, hid⟩ := List.any_eq_true.mp h2
      exact ⟨rfl, ⟨d, hd, by simpa using hid⟩, fun d hd => hd⟩
    · rw [if_neg h2]
      exact ⟨rfl, ⟨c, by simp, rfl⟩, fun d hd => by simp [hd]⟩
  · intro hge
    unfold zone_port_events_stream_register
    have hconn : connect st ⟨cid, [], 50, false⟩ = (false, st) := by
      unfold connect
      rw [if_pos hge]
    dsimp only
    rw [hconn]

/-- Witness for C8: with 100 registered channels the 101st registration
is rejected with the state unchanged and the endpoint answers 503; a
one-registration run stays within the bound. -/
theorem c8_capacity_bound_witness :
    connect ⟨(List.range 100).map (fun i => ⟨i, [], 50, false⟩), 100⟩
        ⟨100, [], 50, false⟩
      = (false, ⟨(List.range 100).map (fun i => ⟨i, [], 50, false⟩), 100⟩) ∧
    (runHubOps [.register ⟨0, [], 50, false⟩]).active_connections.length ≤ 100 ∧
    zone_port_events_stream_register
        ⟨(List.range 100).map (fun i => ⟨i, [], 50, false⟩), 100⟩ 100
      = .error 503 := by
  obtain ⟨h1, h2, h3, h4⟩ := c8_capacity_bound [.register ⟨0, [], 50, false⟩]
    ⟨(List.range 100).map (fun i => ⟨i, [], 50, false⟩), 100⟩
    ⟨100, [], 50, false⟩ 100
  exact ⟨h2 (by simp), h1, h4 (by simp)⟩

-- ---------------------------------------------------------------------------
-- C9: recursive sanitization
-- ---------------------------------------------------------------------------

mutual
/-- The string values of a message, in order, recursing through nested
dicts and lists (dict keys are names, not values). -/
def stringValues : Value → List String
  | .str s => [s]
  | .num _ => []
  | .bool _ => []
  | .null => []
  | .oid _ => []
  | .arr l => stringValuesItems l
  | .obj l => stringValuesFields l

def stringValuesItems : List Value → List String
  | [] => []
  | v :: rest => stringValues v ++ stringValuesItems rest

def stringValuesFields : List (String × Value) → List String
  | [] => []
  | (_, v) :: rest => stringValues v ++ stringValuesFields rest
end

mutual
theorem sanitize_stringValues : ∀ v : Value,
    stringValues (sanitize_value v) = (stringValues v).map htmlEscape
  | .str _ => rfl
  | .num _ => rfl
  | .bool _ => rfl
  | .null => rfl
  | .oid _ => rfl
  | .arr l => sanitize_stringValuesItems l
  | .obj l => sanitize_stringValuesFields l

theorem sanitize_stringValuesItems : ∀ l : List Value,
    stringValuesItems (sanitizeItems l) = (stringValuesItems l).map htmlEscape
  | [] => rfl
  | v :: rest => by
      show stringValues (sanitize_value v) ++ stringValuesItems (sanitizeItems rest)
        = (stringValues v ++ stringValuesItems rest).map htmlEscape
      rw [List.map_append, sanitize_stringValues v,
        sanitize_stringValuesItems rest]

theorem sanitize_stringValuesFields : ∀ l : List (String × Value),
    stringValuesFields (sanitizeFields l)
      = (stringValuesFields l).map htmlEscape
  | [] => rfl
  | (k, v) :: rest => by
      show stringValues (sanitize_value v) ++ stringValuesFields (sanitizeFields rest)
        = (stringValues v ++ stringValuesFields rest).map htmlEscape
      rw [List.map_append, sanitize_stringValues v,
        sanitize_stringValuesFields rest]
end

/-- No replacement emitted by `escapeChar` contains a raw markup
character. -/
theorem escapeChar_no_markup (c : Char) :
    ('<') ∉ escapeChar c ∧ ('>') ∉ escapeChar c := by
  unfold escapeChar
  by_cases h1 : c = '&'
  · rw [if_pos h1]; exact ⟨by decide, by decide⟩
  · rw [if_neg h1]
    by_cases h2 : c = '<'
    · rw [if_pos h2]; exact ⟨by decide, by decide⟩
    · rw [if_neg h2]
      by_cases h3 : c = '>'
      · rw [if_pos h3]; exact ⟨by decide, by decide⟩
      · rw [if_neg h3]
        by_cases h4 : c = '"'
        · rw [if_pos h4]; exact ⟨by decide, by decide⟩
        · rw [if_neg h4]
          by_cases h5 : c.toNat = 39
          · rw [if_pos h5]; exact ⟨by decide, by decide⟩
          · rw [if_neg h5]
            constructor
            · intro hmem
              have : ('<') = c := by simpa using hmem
              exact h2 this.symm
            · intro hmem
              have : ('>') = c := by simpa using hmem
              exact h3 this.symm

/-- An HTML-escaped string contains no raw markup character. -/
theorem htmlEscape_no_markup (s : String) :
    ('<') ∉ (htmlEscape s).toList ∧ ('>') ∉ (htmlEscape s).toList := by
  show ('<') ∉ s.toList.flatMap escapeChar ∧ ('>') ∉ s.toList.flatMap escapeChar
  constructor
  · intro hmem
    rw [List.mem_flatMap] at hmem
    obtain ⟨a, _, ha⟩ := hmem
    exact (escapeChar_no_markup a).1 ha
  · intro hmem
    rw [List.mem_flatMap] at hmem
    obtain ⟨a, _, ha⟩ := hmem
    exact (escapeChar_no_markup a).2 ha

/-- C9: sanitization HTML-escapes every string value of a message,
recursively through nested dicts and lists, so no string value of the
serialized broadcast payload retains a raw markup character. -/
theorem c9_sanitize_escapes_all_strings (v : Value) :
    stringValues (sanitize_value v) = (stringValues v).map htmlEscape ∧
    ∀ s, s ∈ stringValues (sanitize_value v) →
      ('<') ∉ s.toList ∧ ('>') ∉ s.toList := by
  refine ⟨sanitize_stringValues v, ?_⟩
  intro s hs
  rw [sanitize_stringValues v, List.mem_map] at hs
  obtain ⟨t, _, ht⟩ := hs
  rw [← ht]
  exact htmlEscape_no_markup t

/-- Witness for C9: a message with markup in a nested string field is
escaped, and the escaped string carries no raw markup character. -/
theorem c9_sanitize_escapes_all_strings_witness :
    stringValues (sanitize_value (.obj [("msg", .str "<script>")]))
      = [htmlEscape "<script>"] ∧
    htmlEscape "<script>" = "&lt;script&gt;" ∧
    ('<') ∉ (htmlEscape "<script>").toList := by
  obtain ⟨h1, h2⟩ :=
    c9_sanitize_escapes_all_strings (.obj [("msg", .str "<script>")])
  refine ⟨h1, by decide, ?_⟩
  refine (h2 (htmlEscape "<script>") ?_).1
  rw [h1]
  simp only [List.mem_map]
  exact ⟨"<script>",
    by simp [stringValues, stringValuesFields, stringValuesItems], rfl⟩

end InsightsApi
